import Mathlib

/-!
Verification of the obsidian-bookmarks plugin core (shallow embedding).

The definitions below embed, from the TypeScript sources:
  * the waitlist queue (`src/waitlist.ts`, re-exported through `aiService.ts`):
    `add` / `read` / `remove` / `clear` / `update` and the `update` event payload;
  * the step catalogue (`src/steps.ts`): the `full` list and its `simple` suffix;
  * the workflow engine (`src/workflow.ts`): the global lock and cancellation
    flags, `shouldCancel`, `resetCancellationState`, `executeStep`,
    `URLWorkflow`, `startURLWorkflow`, `startYAMLWorkflow`,
    `parseGeneratedYaml`;
  * the API caller (`src/ApiCaller.ts`): `callApi` specialised to the
    `jinaSearch` service, and the prompt truncation in `generateBookmarkYaml`;
  * the legacy AI service (`src/aiService.ts`): `searchWebInfo` and the prompt
    truncation in its own `generateBookmarkYaml`;
  * filename sanitisation (`src/FileManager.ts` / `src/addByYAML.ts`).

Asynchronous effects are embedded by explicit state passing: the outcome of an
external call (network, YAML library, file system) is an oracle value supplied
as an argument, and a JavaScript `throw` is the `thrown` constructor of
`JsResult`.  Text handled by the truncation and sanitisation code is modelled
as `List Char` (one entry per UTF-16 code unit of the JavaScript string).
-/

namespace ObsidianBookmarks

/-- Step status (`stepStatus` in `src/types.ts`):
`pending | processing | completed | failed`. -/
inductive StepStatus where
  | pending
  | processing
  | completed
  | failed
deriving DecidableEq, Repr

/-- One step definition (`Step` in `src/steps.ts`); the optional
`estimatedTime` is always present in `allSteps`, so it is kept as a `Nat`. -/
structure Step where
  title : String
  desc : String
  name : String
  estimatedTime : Nat
deriving DecidableEq, Repr

/-- The five steps of `allSteps` in `src/steps.ts`, in source order. -/
def allSteps : List Step := [
  { title := "获取网页内容", desc := "使用 Jina 从目标网址获取内容",
    name := "get-web-content", estimatedTime := 30 },
  { title := "获取网站评价", desc := "使用 Jina 搜索目标网址获取相关评价",
    name := "get-web-rating", estimatedTime := 60 },
  { title := "生成书签信息", desc := "使用 AI 根据获取的内容生成书签信息",
    name := "generate-bookmark-info", estimatedTime := 60 },
  { title := "下载网站截图", desc := "使用 Thum.io 下载目标网址的截图",
    name := "download-web-screenshot", estimatedTime := 60 },
  { title := "创建书签笔记", desc := "根据生成的书签信息创建 Obsidian 笔记",
    name := "create-bookmark-note", estimatedTime := 10 }
]

/-- `steps.full` in `src/steps.ts`. -/
def stepsFull : List Step := allSteps

/-- `steps.simple = allSteps.slice(3)` in `src/steps.ts`. -/
def stepsSimple : List Step := allSteps.drop 3

/-- `ProcessType` in `src/waitlist.ts`: `full | simple`. -/
inductive ProcessType where
  | full
  | simple
deriving DecidableEq, Repr

/-- `StepStatus` record value stored in a waitlist item
(`{ step: string; status: stepStatus }` in `src/waitlist.ts`). -/
structure StepStatusRec where
  step : String
  status : StepStatus
deriving DecidableEq, Repr

/-- `WaitlistItem` in `src/waitlist.ts`.  The JavaScript
`Record<string, StepStatus>` is embedded as an association list in key
insertion order (keys produced by `add` are the distinct step names). -/
structure WaitlistItem where
  url : String
  status : List (String × StepStatusRec)
deriving DecidableEq, Repr

/-- Payload of the `update` event emitted by `WaitlistManager.update`. -/
structure UpdateEvent where
  url : String
  step : String
  oldStatus : StepStatus
  newStatus : StepStatus
  index : Nat
  count : Nat
deriving DecidableEq, Repr

/-- The step ordering selected by the `type` argument of
`WaitlistManager.add`. -/
def stepsFor (type : ProcessType) : List Step :=
  match type with
  | ProcessType.full => stepsFull
  | ProcessType.simple => stepsSimple

/-- Status map built by `WaitlistManager.add`: every step of the chosen
ordering is initialised to `pending`. -/
def initStatus (type : ProcessType) : List (String × StepStatusRec) :=
  (stepsFor type).map
    (fun s => (s.name, { step := s.name, status := StepStatus.pending }))

/-- The item `{ url, status }` pushed by `WaitlistManager.add`. -/
def mkItem (url : String) (type : ProcessType) : WaitlistItem :=
  { url := url, status := initStatus type }

/-- `WaitlistManager.add`: appends the new item and returns the new length. -/
def wlAdd (q : List WaitlistItem) (url : String) (type : ProcessType) :
    List WaitlistItem × Nat :=
  let q2 := q ++ [mkItem url type]
  (q2, q2.length)

/-- `WaitlistManager.read`: `this.waitlist[n] || null`, a non-destructive
peek that returns `null` out of bounds and never throws (it is total). -/
def wlRead (q : List WaitlistItem) (n : Nat) : Option WaitlistItem :=
  q[n]?

/-- `WaitlistManager.remove`: `this.waitlist.shift() || null`. -/
def wlRemove (q : List WaitlistItem) : List WaitlistItem × Option WaitlistItem :=
  match q with
  | [] => ([], none)
  | item :: rest => (rest, some item)

/-- `WaitlistManager.clear`: `this.waitlist = []`. -/
def wlClear (_q : List WaitlistItem) : List WaitlistItem :=
  []

/-- In-place assignment `item.status[step].status = status` on the embedded
association list: the entry under `key` gets the new status, everything else
is untouched. -/
def recSet (m : List (String × StepStatusRec)) (key : String) (st : StepStatus) :
    List (String × StepStatusRec) :=
  m.map fun kv => if kv.1 = key then (kv.1, { kv.2 with status := st }) else kv

/-- `WaitlistManager.update(step, status, n)`: looks up `this.waitlist[n]`;
if the item and the step key exist, mutates that status and emits an `update`
event with the old and new status; otherwise it does nothing and emits no
event. -/
def wlUpdate (q : List WaitlistItem) (step : String) (st : StepStatus) (n : Nat) :
    List WaitlistItem × Option UpdateEvent :=
  match q[n]? with
  | none => (q, none)
  | some item =>
    match item.status.lookup step with
    | none => (q, none)
    | some old =>
      (q.set n { item with status := recSet item.status step st },
       some { url := item.url, step := step, oldStatus := old.status,
              newStatus := st, index := n, count := q.length })

/-- A sequence of `add` calls folded over an initial queue. -/
def addAll (q : List WaitlistItem) (xs : List (String × ProcessType)) :
    List WaitlistItem :=
  xs.foldl (fun acc p => (wlAdd acc p.1 p.2).1) q

/-- A JavaScript exception value: either the dedicated
`WorkflowCancellationError` of `src/types.ts` or an ordinary `Error` carrying
its message. -/
inductive JsError where
  | cancellation
  | error (msg : String)
deriving DecidableEq, Repr

/-- Outcome of a JavaScript expression: a value, or a thrown exception. -/
inductive JsResult (α : Type) where
  | ok (a : α)
  | thrown (e : JsError)
deriving DecidableEq, Repr

/-- The four static fields of `BookmarkWorkflow` in `src/workflow.ts`:
the global lock, its owner, and the cancellation request flags. -/
structure GlobalState where
  isWorkflowRunning : Bool
  runningInstanceId : Option String
  isCancellationRequested : Bool
  cancellingInstanceId : Option String
deriving DecidableEq, Repr

/-- `BookmarkWorkflow.shouldCancel` for the instance `instanceId`. -/
def shouldCancel (g : GlobalState) (instanceId : String) : Bool :=
  g.isCancellationRequested && (g.cancellingInstanceId == some instanceId)

/-- `BookmarkWorkflow.resetCancellationState`. -/
def resetCancellationState (g : GlobalState) : GlobalState :=
  { g with isCancellationRequested := false, cancellingInstanceId := none }

/-- Lock acquisition performed at the start of both workflow entry points. -/
def acquireLock (g : GlobalState) (instanceId : String) : GlobalState :=
  { g with isWorkflowRunning := true, runningInstanceId := some instanceId }

/-- The `finally` block of both workflow entry points: release the lock and
reset the cancellation state. -/
def releaseLock (g : GlobalState) : GlobalState :=
  resetCancellationState
    { g with isWorkflowRunning := false, runningInstanceId := none }

/-- `BookmarkWorkflow.executeStep`.  The externally supplied step action is
embedded as its outcome `action`.  If a matching cancellation is pending the
step throws `WorkflowCancellationError` before touching any status; otherwise
the step status (of the item at index 0, the default index of
`waitlist.update`) goes to `processing`, then to `completed` on success with
the action result returned, or to `failed` on a thrown error which is
rethrown. -/
def executeStep {α : Type} (g : GlobalState) (instanceId : String)
    (q : List WaitlistItem) (stepId : String) (action : JsResult α) :
    JsResult α × List WaitlistItem :=
  if shouldCancel g instanceId then
    (JsResult.thrown JsError.cancellation, q)
  else
    let q1 := (wlUpdate q stepId StepStatus.processing 0).1
    match action with
    | JsResult.ok r =>
      (JsResult.ok r, (wlUpdate q1 stepId StepStatus.completed 0).1)
    | JsResult.thrown e =>
      (JsResult.thrown e, (wlUpdate q1 stepId StepStatus.failed 0).1)

/-- Result of the external `parseYaml` call of the Obsidian API applied to the
cleaned YAML text, as consumed by `parseGeneratedYaml`: the fields it reads,
each possibly absent. -/
structure ParsedYaml where
  title : Option String
  url : Option String
  description : Option String
  tags : Option (List String)
  bookmarkNote : Option String
  created : Option String
deriving DecidableEq, Repr

/-- `NoteContentData` of `src/types.ts`. -/
structure NoteContentData where
  created : String
  title : String
  url : String
  description : String
  tags : List String
  screenshotFileName : String
  bookmarkNote : String
deriving DecidableEq, Repr

/-- JavaScript truthiness of an optional string field: absent and `""` are
falsy, every other string is truthy. -/
def jsTruthy : Option String → Bool
  | none => false
  | some s => !(s == "")

/-- Body of the `try` block of `BookmarkWorkflow.parseGeneratedYaml` after the
`parseYaml` call, with the current clock reading `now`
(`new Date().toISOString()`). -/
def parseGeneratedYamlCore (p : ParsedYaml) (now : String) :
    JsResult NoteContentData :=
  if jsTruthy p.title && jsTruthy p.url then
    JsResult.ok
      { created := now,
        title := p.title.getD "",
        url := p.url.getD "",
        description := p.description.getD "",
        tags := p.tags.getD [],
        screenshotFileName := p.title.getD "" ++ ".png",
        bookmarkNote := p.bookmarkNote.getD "" }
  else
    JsResult.thrown (JsError.error "书签信息中缺少标题或URL")

/-- `BookmarkWorkflow.parseGeneratedYaml`: the whole body is wrapped in a
`try` whose `catch` rethrows the fixed message.  `parsed` is the outcome of
the external `parseYaml` call (the code-fence and `---` extraction before it
only selects the text that call receives). -/
def parseGeneratedYaml (parsed : JsResult ParsedYaml) (now : String) :
    JsResult NoteContentData :=
  match parsed with
  | JsResult.thrown _ => JsResult.thrown (JsError.error "解析生成的书签信息失败")
  | JsResult.ok p =>
    match parseGeneratedYamlCore p now with
    | JsResult.ok d => JsResult.ok d
    | JsResult.thrown _ => JsResult.thrown (JsError.error "解析生成的书签信息失败")

/-- Oracle for one pass of `BookmarkWorkflow.URLWorkflow` over a single queue
item: outcomes of the five step actions, of the external `parseYaml` call on
the generated text, and the clock reading. -/
structure ItemEnv where
  getWebContent : JsResult String
  getWebRating : JsResult String
  generateBookmarkInfo : JsResult String
  parsed : JsResult ParsedYaml
  now : String
  downloadScreenshot : JsResult String
  createNote : JsResult String
deriving Repr

/-- The `try` block of `BookmarkWorkflow.URLWorkflow`: the five
`executeStep` calls in pipeline order with `parseGeneratedYaml` between steps
three and four; on success the created note path is appended to
`createdNotes` and the block evaluates to `true`. -/
def URLWorkflowBody (g : GlobalState) (instanceId : String)
    (q : List WaitlistItem) (created : List String) (env : ItemEnv) :
    JsResult Bool × List WaitlistItem × List String :=
  match executeStep g instanceId q "get-web-content" env.getWebContent with
  | (JsResult.thrown e, q1) => (JsResult.thrown e, q1, created)
  | (JsResult.ok _webContent, q1) =>
    match executeStep g instanceId q1 "get-web-rating" env.getWebRating with
    | (JsResult.thrown e, q2) => (JsResult.thrown e, q2, created)
    | (JsResult.ok _searchInfo, q2) =>
      match executeStep g instanceId q2 "generate-bookmark-info"
          env.generateBookmarkInfo with
      | (JsResult.thrown e, q3) => (JsResult.thrown e, q3, created)
      | (JsResult.ok _yaml, q3) =>
        match parseGeneratedYaml env.parsed env.now with
        | JsResult.thrown e => (JsResult.thrown e, q3, created)
        | JsResult.ok _noteData =>
          match executeStep g instanceId q3 "download-web-screenshot"
              env.downloadScreenshot with
          | (JsResult.thrown e, q4) => (JsResult.thrown e, q4, created)
          | (JsResult.ok _file, q4) =>
            match executeStep g instanceId q4 "create-bookmark-note"
                env.createNote with
            | (JsResult.thrown e, q5) => (JsResult.thrown e, q5, created)
            | (JsResult.ok path, q5) =>
              (JsResult.ok true, q5, created ++ [path])

/-- `BookmarkWorkflow.URLWorkflow`: its body is entirely wrapped in a
`try` / `catch` whose `catch` swallows every error (including
`WorkflowCancellationError`) and returns `false`, so the function never
throws. -/
def URLWorkflow (g : GlobalState) (instanceId : String)
    (q : List WaitlistItem) (created : List String) (env : ItemEnv) :
    Bool × List WaitlistItem × List String :=
  match URLWorkflowBody g instanceId q created env with
  | (JsResult.ok b, q2, c2) => (b, q2, c2)
  | (JsResult.thrown _e, q2, c2) => (false, q2, c2)

/-- `WaitlistManager.update` never changes the queue length (used to justify
termination of the batch loop, whose guard re-reads `waitlist.length`). -/
theorem wlUpdate_length (q : List WaitlistItem) (step : String)
    (st : StepStatus) (n : Nat) : ((wlUpdate q step st n).1).length = q.length := by
  unfold wlUpdate
  split
  · rfl
  · split
    · rfl
    · simp

/-- `executeStep` never changes the queue length. -/
theorem executeStep_length {α : Type} (g : GlobalState) (instanceId : String)
    (q : List WaitlistItem) (stepId : String) (action : JsResult α) :
    ((executeStep g instanceId q stepId action).2).length = q.length := by
  unfold executeStep
  split
  · rfl
  · match action with
    | JsResult.ok r => simp [wlUpdate_length]
    | JsResult.thrown e => simp [wlUpdate_length]

/-- Queue length extracted from an `executeStep` call equation. -/
theorem step_len {α : Type} {g : GlobalState} {instanceId : String}
    {q : List WaitlistItem} {stepId : String} {action : JsResult α}
    {res : JsResult α} {q2 : List WaitlistItem}
    (h : executeStep g instanceId q stepId action = (res, q2)) :
    q2.length = q.length := by
  have hl := executeStep_length g instanceId q stepId action
  rw [h] at hl
  exact hl

/-- The body of `URLWorkflow` never changes the queue length. -/
theorem URLWorkflowBody_length (g : GlobalState) (instanceId : String)
    (q : List WaitlistItem) (created : List String) (env : ItemEnv) :
    ((URLWorkflowBody g instanceId q created env).2.1).length = q.length := by
  unfold URLWorkflowBody
  split
  next e q1 h1 => exact step_len h1
  next _w q1 h1 =>
    split
    next e q2 h2 => exact (step_len h2).trans (step_len h1)
    next _s q2 h2 =>
      split
      next e q3 h3 => exact ((step_len h3).trans (step_len h2)).trans (step_len h1)
      next _y q3 h3 =>
        split
        next e _h4 => exact ((step_len h3).trans (step_len h2)).trans (step_len h1)
        next _nd _h4 =>
          split
          next e q4 h5 =>
            exact (step_len h5).trans
              (((step_len h3).trans (step_len h2)).trans (step_len h1))
          next _f q4 h5 =>
            split
            next e q5 h6 =>
              exact (step_len h6).trans ((step_len h5).trans
                (((step_len h3).trans (step_len h2)).trans (step_len h1)))
            next p q5 h6 =>
              exact (step_len h6).trans ((step_len h5).trans
                (((step_len h3).trans (step_len h2)).trans (step_len h1)))

/-- `URLWorkflow` never changes the queue length. -/
theorem URLWorkflow_length (g : GlobalState) (instanceId : String)
    (q : List WaitlistItem) (created : List String) (env : ItemEnv) :
    ((URLWorkflow g instanceId q created env).2.1).length = q.length := by
  have hb := URLWorkflowBody_length g instanceId q created env
  unfold URLWorkflow
  split
  next b q2 c2 h => rw [h] at hb; exact hb
  next e q2 c2 h => rw [h] at hb; exact hb

/-- Observable outcome of one workflow entry point: the returned boolean, the
final global (static) state, the final queue, and `this.createdNotes`. -/
structure RunResult where
  returnValue : Bool
  finalState : GlobalState
  finalQueue : List WaitlistItem
  createdNotes : List String
deriving DecidableEq, Repr

/-- The `while (currentIndex < waitlist.length)` loop of
`startURLWorkflow`.  At each index it first checks `shouldCancel` (throwing
`WorkflowCancellationError` when set), skips missing items, and otherwise runs
`URLWorkflow` on the item inside `try { ... } catch { hasError = true }`.
`URLWorkflow` never throws (its whole body sits in its own `try` / `catch`
returning `false`), so that `catch` is unreachable and `hasError` keeps the
value it entered the loop with. -/
def processLoop (g : GlobalState) (instanceId : String) (envs : Nat → ItemEnv)
    (q : List WaitlistItem) (created : List String) (i : Nat)
    (hasError : Bool) : JsResult Bool × List WaitlistItem × List String :=
  if _h : i < q.length then
    if shouldCancel g instanceId then
      (JsResult.thrown JsError.cancellation, q, created)
    else
      match wlRead q i with
      | none => processLoop g instanceId envs q created (i + 1) hasError
      | some _item =>
        let r := URLWorkflow g instanceId q created (envs i)
        processLoop g instanceId envs r.2.1 r.2.2 (i + 1) hasError
  else
    (JsResult.ok hasError, q, created)
termination_by q.length - i
decreasing_by
  · omega
  · have := URLWorkflow_length g instanceId q created (envs i)
    omega

/-- `BookmarkWorkflow.startURLWorkflow`: fail fast when the global lock is
held; otherwise acquire the lock, drain the queue, clear it after a normally
finished batch and return `!hasError`, or return `false` from the `catch`
(leaving the queue as the loop left it); the `finally` block releases the
lock and resets the cancellation state in every case.  Modal and notice calls
are presentation-only and are not modelled. -/
def startURLWorkflow (g : GlobalState) (instanceId : String)
    (q : List WaitlistItem) (created : List String) (envs : Nat → ItemEnv) :
    RunResult :=
  if g.isWorkflowRunning then
    { returnValue := false, finalState := g, finalQueue := q,
      createdNotes := created }
  else
    let g1 := acquireLock g instanceId
    match processLoop g1 instanceId envs q created 0 false with
    | (JsResult.ok hasError, q2, c2) =>
      { returnValue := !hasError, finalState := releaseLock g1,
        finalQueue := wlClear q2, createdNotes := c2 }
    | (JsResult.thrown _e, q2, c2) =>
      { returnValue := false, finalState := releaseLock g1,
        finalQueue := q2, createdNotes := c2 }

/-- Oracle for one run of `startYAMLWorkflow`: outcome of the external
`parseYaml` call on the pasted text, the clock reading, and the outcomes of
the two step actions. -/
structure YamlEnv where
  parsed : JsResult ParsedYaml
  now : String
  downloadScreenshot : JsResult String
  createNote : JsResult String
deriving Repr

/-- `BookmarkWorkflow.startYAMLWorkflow`: fail fast when the global lock is
held; otherwise acquire the lock, parse the supplied YAML (its own
`try` / `catch` returns `false` on a parse failure), run the two-step simple
pipeline through `executeStep` with the outer `catch` turning any thrown
error into `false`; the `finally` block releases the lock and resets the
cancellation state in every case. -/
def startYAMLWorkflow (g : GlobalState) (instanceId : String)
    (q : List WaitlistItem) (created : List String) (env : YamlEnv) :
    RunResult :=
  if g.isWorkflowRunning then
    { returnValue := false, finalState := g, finalQueue := q,
      createdNotes := created }
  else
    let g1 := acquireLock g instanceId
    let result : Bool × List WaitlistItem × List String :=
      match parseGeneratedYaml env.parsed env.now with
      | JsResult.thrown _ => (false, q, created)
      | JsResult.ok _noteData =>
        match executeStep g1 instanceId q "download-web-screenshot"
            env.downloadScreenshot with
        | (JsResult.thrown _, q1) => (false, q1, created)
        | (JsResult.ok _file, q1) =>
          match executeStep g1 instanceId q1 "create-bookmark-note"
              env.createNote with
          | (JsResult.thrown _, q2) => (false, q2, created)
          | (JsResult.ok path, q2) => (true, q2, created ++ [path])
    { returnValue := result.1, finalState := releaseLock g1,
      finalQueue := result.2.1, createdNotes := result.2.2 }

/-- Outcome of one outbound request as seen by the search call: a response
with its HTTP status and the result of `JSON.parse` plus content extraction
on its text (only consulted when the status is 200), or an exception thrown
by `requestUrl` itself. -/
inductive FetchOutcome where
  | resp (status : Nat) (parsedContent : JsResult String)
  | netThrow (msg : String)
deriving DecidableEq, Repr

/-- `AiService.callApi` of `src/ApiCaller.ts` specialised to
`type = 'jinaSearch'` (the search step the workflow runs): credential and URL
validation throw before the `try` block; inside it, a 200 response returns
the extracted content (empty content is only logged), every other status
throws, and the `catch` rethrows every error with the
`AI书签生成失败: ` wrapper. -/
def callApiJinaSearch (jinaApiKey : String) (urlValid : Bool)
    (outcome : FetchOutcome) : JsResult String :=
  if jinaApiKey == "" then
    JsResult.thrown (JsError.error "Jina AI API密钥未设置")
  else if !urlValid then
    JsResult.thrown (JsError.error "无效的网址格式")
  else
    let tryBody : JsResult String :=
      match outcome with
      | FetchOutcome.netThrow msg => JsResult.thrown (JsError.error msg)
      | FetchOutcome.resp status parsedContent =>
        if status == 200 then
          match parsedContent with
          | JsResult.ok content => JsResult.ok content
          | JsResult.thrown e => JsResult.thrown e
        else if status == 401 then
          JsResult.thrown (JsError.error "Jina AI 搜索器: API密钥无效或已过期")
        else if status == 429 then
          JsResult.thrown (JsError.error "Jina AI 搜索器: API请求过于频繁，请稍后再试")
        else if 500 ≤ status then
          JsResult.thrown (JsError.error "Jina AI 搜索器: 服务暂时不可用，请稍后再试")
        else
          JsResult.thrown (JsError.error
            ("Jina AI 搜索器: API返回错误，状态码: " ++ toString status))
    match tryBody with
    | JsResult.ok c => JsResult.ok c
    | JsResult.thrown (JsError.error msg) =>
      JsResult.thrown (JsError.error ("AI书签生成失败: " ++ msg))
    | JsResult.thrown JsError.cancellation =>
      JsResult.thrown (JsError.error "AI书签生成失败: 未知错误")

/-- `AiService.searchWebInfo` of `src/aiService.ts`: credential and URL
validation still throw, but inside the `try` block a 200 response returns the
extracted content while 401, 429 and every other status return the empty
string, and the `catch` also returns the empty string. -/
def searchWebInfo (jinaApiKey : String) (urlValid : Bool)
    (outcome : FetchOutcome) : JsResult String :=
  if jinaApiKey == "" then
    JsResult.thrown (JsError.error "Jina AI API密钥未设置")
  else if !urlValid then
    JsResult.thrown (JsError.error "无效的网址格式")
  else
    match outcome with
    | FetchOutcome.netThrow _ => JsResult.ok ""
    | FetchOutcome.resp status parsedContent =>
      if status == 200 then
        match parsedContent with
        | JsResult.ok content => JsResult.ok content
        | JsResult.thrown _ => JsResult.ok ""
      else if status == 401 then JsResult.ok ""
      else if status == 429 then JsResult.ok ""
      else JsResult.ok ""

/-- The failure modes of the search request named by the spec: any non-200
status (authentication 401, rate limit 429, or another unexpected status), a
parse error on a 200 response, or a thrown exception. -/
def isFailureOutcome : FetchOutcome → Bool
  | FetchOutcome.netThrow _ => true
  | FetchOutcome.resp status parsedContent =>
    !(status == 200) ||
      (match parsedContent with
       | JsResult.thrown _ => true
       | JsResult.ok _ => false)

/-- The literal truncation marker `'...'`. -/
def jsDots : List Char := ['.', '.', '.']

/-- The shared shape
`value.length > maxLen ? value.substring(0, maxLen) + '...' : value`. -/
def truncateAt (maxLen : Nat) (s : List Char) : List Char :=
  if maxLen < s.length then s.take maxLen ++ jsDots else s

/-- `truncatedWebContent` in `AiService.generateBookmarkYaml` of
`src/ApiCaller.ts` (maximum 2000). -/
def apiTruncWebContent (webContent : List Char) : List Char :=
  truncateAt 2000 webContent

/-- `truncatedSearchInfo` in `AiService.generateBookmarkYaml` of
`src/ApiCaller.ts` (maximum 8000). -/
def apiTruncSearchInfo (searchInfo : List Char) : List Char :=
  truncateAt 8000 searchInfo

/-- `truncatedWebContent` in `AiService.generateBookmarkYaml` of
`src/aiService.ts` (`maxContentLength = 8000`). -/
def aiTruncWebContent (webContent : List Char) : List Char :=
  truncateAt 8000 webContent

/-- `truncatedSearchInfo` in `AiService.generateBookmarkYaml` of
`src/aiService.ts` (maximum 2000). -/
def aiTruncSearchInfo (searchInfo : List Char) : List Char :=
  truncateAt 2000 searchInfo

/-- Section header before the embedded web content. -/
def promptHeaderContent : List Char := "\n\n## 网页内容：\n".toList

/-- Section header before the embedded search text. -/
def promptHeaderSearch : List Char := "\n\n## 搜索信息：\n".toList

/-- Section header before the target URL. -/
def promptHeaderUrl : List Char := "\n\n## 目标网址：\n".toList

/-- The templated prompt assembled by `generateBookmarkYaml` in
`src/ApiCaller.ts`. -/
def apiPrompt (tmpl url webContent searchInfo : List Char) : List Char :=
  tmpl ++ promptHeaderContent ++ apiTruncWebContent webContent
    ++ promptHeaderSearch ++ apiTruncSearchInfo searchInfo
    ++ promptHeaderUrl ++ url ++ ['\n']

/-- The templated prompt assembled by `generateBookmarkYaml` in
`src/aiService.ts`. -/
def aiPrompt (tmpl url webContent searchInfo : List Char) : List Char :=
  tmpl ++ promptHeaderContent ++ aiTruncWebContent webContent
    ++ promptHeaderSearch ++ aiTruncSearchInfo searchInfo
    ++ promptHeaderUrl ++ url
    ++ "\n\n请根据以上信息生成完整的书签YAML信息。".toList

/-- The characters matched by the class `[<>:"/\\|?*]` in
`sanitizeFileName`. -/
def illegalChars : List Char := ['<', '>', ':', '"', '/', '\\', '|', '?', '*']

/-- Membership in the illegal-character class. -/
def isIllegal (c : Char) : Bool := illegalChars.contains c

/-- `.replace(/[<>:"/\\|?*]/g, '_')`. -/
def replaceIllegal (s : List Char) : List Char :=
  s.map fun c => if isIllegal c then '_' else c

/-- The character class `\s` of JavaScript regular expressions, which is also
the set removed by `String.prototype.trim`. -/
def isJsWs (c : Char) : Bool :=
  c == ' ' || c == '\t' || c == '\n' || c == '\u000B' || c == '\u000C' ||
  c == '\r' || c == '\u00A0' || c == '\u1680' ||
  ('\u2000' ≤ c && c ≤ '\u200A') ||
  c == '\u2028' || c == '\u2029' || c == '\u202F' || c == '\u205F' ||
  c == '\u3000' || c == '\uFEFF'

/-- `.replace(/\s+/g, ' ')`: every maximal run of whitespace collapses to a
single space (emitted when the run ends), every other character is kept. -/
def collapseWs : List Char → List Char
  | [] => []
  | [c] => if isJsWs c then [' '] else [c]
  | c :: d :: rest =>
    if isJsWs c && isJsWs d then collapseWs (d :: rest)
    else if isJsWs c then ' ' :: collapseWs (d :: rest)
    else c :: collapseWs (d :: rest)

/-- `.trim()`: drop leading and trailing whitespace. -/
def trimWs (s : List Char) : List Char :=
  ((s.dropWhile isJsWs).reverse.dropWhile isJsWs).reverse

/-- `sanitizeFileName` of `src/FileManager.ts`, character for character the
same expression as the private copy in `src/addByYAML.ts`:
`fileName.replace(/[<>:"/\\|?*]/g, '_').replace(/\s+/g, ' ').trim()`. -/
def sanitizeFileName (s : List Char) : List Char :=
  trimWs (collapseWs (replaceIllegal s))

/-- Status of step `stepId` of the item at index `n`, as a listener would
observe it. -/
def stepStatusAt (q : List WaitlistItem) (n : Nat) (stepId : String) :
    Option StepStatus :=
  match q[n]? with
  | none => none
  | some item => (item.status.lookup stepId).map (fun r => r.status)

/-- Two adjacent characters are not both whitespace. -/
def noWsPair (a b : Char) : Prop :=
  isJsWs a = false ∨ isJsWs b = false

/-- The idle global state: lock free, no cancellation pending. -/
def idleState : GlobalState :=
  { isWorkflowRunning := false, runningInstanceId := none,
    isCancellationRequested := false, cancellingInstanceId := none }

/-- A global state in which another instance holds the lock. -/
def busyState : GlobalState :=
  { isWorkflowRunning := true, runningInstanceId := some "owner",
    isCancellationRequested := false, cancellingInstanceId := none }

/-- A global state in which instance `run1` holds the lock and a cancellation
request against `run1` is pending. -/
def cancellingState : GlobalState :=
  { isWorkflowRunning := true, runningInstanceId := some "run1",
    isCancellationRequested := true, cancellingInstanceId := some "run1" }

/-- Item oracle under which every external call succeeds. -/
def envAllOk : ItemEnv :=
  { getWebContent := JsResult.ok "web content",
    getWebRating := JsResult.ok "search info",
    generateBookmarkInfo := JsResult.ok "title: B site\nurl: https://b.example/",
    parsed := JsResult.ok
      { title := some "B site", url := some "https://b.example/",
        description := none, tags := none, bookmarkNote := none,
        created := none },
    now := "2026-10-11T00:00:00.000Z",
    downloadScreenshot := JsResult.ok "B site.png",
    createNote := JsResult.ok "Bookmarks/B site.md" }

/-- Item oracle under which the content-extraction step throws. -/
def envContentFails : ItemEnv :=
  { envAllOk with
    getWebContent := JsResult.thrown (JsError.error "网页内容提取失败") }

/-- A YAML-run oracle under which every external call succeeds. -/
def yamlEnvOk : YamlEnv :=
  { parsed := JsResult.ok
      { title := some "B site", url := some "https://b.example/",
        description := none, tags := none, bookmarkNote := none,
        created := none },
    now := "2026-10-11T00:00:00.000Z",
    downloadScreenshot := JsResult.ok "B site.png",
    createNote := JsResult.ok "Bookmarks/B site.md" }

/-- Two full-mode URLs queued by two `add` calls. -/
def demoQueue : List WaitlistItem :=
  addAll [] [("https://a.example/", ProcessType.full),
             ("https://b.example/", ProcessType.full)]

/-- Batch oracle: the content extraction of item 0 throws, item 1 succeeds
throughout. -/
def demoEnvs : Nat → ItemEnv :=
  fun i => if i == 0 then envContentFails else envAllOk



/-- Folding `add` calls over a queue appends the corresponding items in call
order. -/
theorem addAll_eq (xs : List (String × ProcessType)) (q : List WaitlistItem) :
    addAll q xs = q ++ xs.map (fun p => mkItem p.1 p.2) := by
  induction xs generalizing q with
  | nil => simp [addAll]
  | cons p xs ih =>
    simp only [addAll, List.foldl_cons, List.map_cons]
    have h := ih ((wlAdd q p.1 p.2).1)
    simp only [addAll] at h
    rw [h]
    simp [wlAdd]

/-- Updating one key of the status map leaves every other key unchanged. -/
theorem recSet_lookup_ne (m : List (String × StepStatusRec)) (key step : String)
    (st : StepStatus) (hne : key ≠ step) :
    (recSet m step st).lookup key = m.lookup key := by
  induction m with
  | nil => rfl
  | cons kv m ih =>
    obtain ⟨k, v⟩ := kv
    by_cases hk : k = step
    · subst hk
      have hb : (key == k) = false := by
        simp only [beq_eq_false_iff_ne, ne_eq]
        exact hne
      simp [recSet, List.lookup_cons, hb, ih, recSet] at ih ⊢
      exact ih
    · have hb := hk
      simp only [recSet, List.map_cons, if_neg hk, List.lookup_cons]
      cases hbeq : key == k with
      | true => rfl
      | false =>
        simp only [recSet] at ih
        exact ih

/-- Updating the key that is present rewrites exactly its status. -/
theorem recSet_lookup_self (m : List (String × StepStatusRec)) (step : String)
    (st : StepStatus) (old : StepStatusRec) (hold : m.lookup step = some old) :
    (recSet m step st).lookup step = some { old with status := st } := by
  induction m with
  | nil => simp at hold
  | cons kv m ih =>
    obtain ⟨k, v⟩ := kv
    by_cases hk : k = step
    · subst hk
      rw [List.lookup_cons_self] at hold
      have hvo : v = old := by injection hold
      subst hvo
      simp [recSet, List.lookup_cons_self]
    · have hb : (step == k) = false := by
        simp only [beq_eq_false_iff_ne, ne_eq]
        exact fun hh => hk hh.symm
      rw [List.lookup_cons, hb] at hold
      simp only [recSet, List.map_cons, if_neg hk, List.lookup_cons, hb]
      simp only [recSet] at ih
      exact ih hold

/-- When the addressed item and step key exist, `update` rewrites that status
in place and the new status is observable at the same position. -/
theorem wlUpdate_hit (q : List WaitlistItem) (step : String) (st : StepStatus)
    (n : Nat) (item : WaitlistItem) (rec : StepStatusRec)
    (hitem : q[n]? = some item) (hrec : item.status.lookup step = some rec) :
    ((wlUpdate q step st n).1)[n]? =
      some { item with status := recSet item.status step st } ∧
    stepStatusAt (wlUpdate q step st n).1 n step = some st := by
  have hn : n < q.length := by
    by_contra hge
    rw [List.getElem?_eq_none (Nat.le_of_not_lt hge)] at hitem
    cases hitem
  have hset : ((wlUpdate q step st n).1)[n]? =
      some { item with status := recSet item.status step st } := by
    unfold wlUpdate
    rw [hitem]
    simp only [hrec]
    exact List.getElem?_set_self hn
  refine ⟨hset, ?_⟩
  unfold stepStatusAt
  rw [hset]
  show Option.map (fun r => r.status) ((recSet item.status step st).lookup step) =
    some st
  rw [recSet_lookup_self item.status step st rec hrec]
  rfl

/-- C6: after any sequence of `add` calls on the empty queue (with no
intervening `remove` or `clear`), `read i` returns the i-th added item in
insertion order, and for every index at or past the queue length `read`
returns null; `read` is a total function, so it never throws. -/
theorem c6_read_insertion_order (xs : List (String × ProcessType)) (i : Nat) :
    (∀ hi : i < xs.length,
      wlRead (addAll [] xs) i =
        some (mkItem (xs.get ⟨i, hi⟩).1 (xs.get ⟨i, hi⟩).2)) ∧
    (xs.length ≤ i → wlRead (addAll [] xs) i = none) := by
  constructor
  · intro hi
    rw [wlRead, addAll_eq, List.nil_append, List.getElem?_map,
      List.getElem?_eq_getElem hi]
    rfl
  · intro hle
    rw [wlRead, addAll_eq, List.nil_append]
    exact List.getElem?_eq_none (by simpa using hle)

/-- Witness for C6 at a concrete two-element add sequence. -/
theorem c6_witness :
    (1 < ([("https://a.example/", ProcessType.full),
           ("https://b.example/", ProcessType.simple)] :
            List (String × ProcessType)).length) ∧
    wlRead (addAll [] [("https://a.example/", ProcessType.full),
                       ("https://b.example/", ProcessType.simple)]) 1 =
      some (mkItem "https://b.example/" ProcessType.simple) ∧
    wlRead (addAll [] [("https://a.example/", ProcessType.full),
                       ("https://b.example/", ProcessType.simple)]) 5 = none := by
  refine ⟨by decide, ?_, ?_⟩
  · exact (c6_read_insertion_order
      [("https://a.example/", ProcessType.full),
       ("https://b.example/", ProcessType.simple)] 1).1 (by decide)
  · exact (c6_read_insertion_order
      [("https://a.example/", ProcessType.full),
       ("https://b.example/", ProcessType.simple)] 5).2 (by decide)

/-- C7: `update` on a missing item index or a missing step key is a no-op
that emits no event; on a hit it emits an `update` event with the old and new
status and changes exactly the addressed status: the queue length, every
other item, and every other step key of the addressed item are unchanged. -/
theorem c7_update_frame (q : List WaitlistItem) (step : String)
    (st : StepStatus) (n : Nat) :
    (q[n]? = none → wlUpdate q step st n = (q, none)) ∧
    (∀ item, q[n]? = some item →
      (item.status.lookup step = none → wlUpdate q step st n = (q, none)) ∧
      (∀ old, item.status.lookup step = some old →
        (wlUpdate q step st n).2 =
          some { url := item.url, step := step, oldStatus := old.status,
                 newStatus := st, index := n, count := q.length } ∧
        ((wlUpdate q step st n).1).length = q.length ∧
        (∀ m, m ≠ n → ((wlUpdate q step st n).1)[m]? = q[m]?) ∧
        ((wlUpdate q step st n).1)[n]? =
          some { item with status := recSet item.status step st } ∧
        (∀ key, key ≠ step →
          (recSet item.status step st).lookup key = item.status.lookup key) ∧
        (recSet item.status step st).lookup step =
          some { old with status := st })) := by
  constructor
  · intro hnone
    unfold wlUpdate
    rw [hnone]
  · intro item hitem
    constructor
    · intro hstep
      unfold wlUpdate
      rw [hitem]
      simp only [hstep]
    · intro old hold
      have hev : (wlUpdate q step st n).2 =
          some { url := item.url, step := step, oldStatus := old.status,
                 newStatus := st, index := n, count := q.length } := by
        unfold wlUpdate
        rw [hitem]
        simp only [hold]
      refine ⟨hev, ?_, ?_, (wlUpdate_hit q step st n item old hitem hold).1,
        fun key hkey => recSet_lookup_ne item.status key step st hkey,
        recSet_lookup_self item.status step st old hold⟩
      · rw [wlUpdate_length]
      · intro m hm
        unfold wlUpdate
        rw [hitem]
        simp only [hold]
        exact List.getElem?_set_ne (fun hnm => hm hnm.symm)

/-- Witness for C7: a hit on a freshly added full-mode item and a miss on an
unknown step key. -/
theorem c7_witness :
    ((addAll [] [("https://a.example/", ProcessType.full)])[0]? =
      some (mkItem "https://a.example/" ProcessType.full)) ∧
    ((mkItem "https://a.example/" ProcessType.full).status.lookup
      "get-web-content" =
        some { step := "get-web-content", status := StepStatus.pending }) ∧
    (wlUpdate (addAll [] [("https://a.example/", ProcessType.full)])
        "get-web-content" StepStatus.processing 0).2 =
      some { url := "https://a.example/", step := "get-web-content",
             oldStatus := StepStatus.pending,
             newStatus := StepStatus.processing, index := 0, count := 1 } := by
  refine ⟨by decide, by decide, ?_⟩
  have h := (((c7_update_frame (addAll [] [("https://a.example/", ProcessType.full)])
      "get-web-content" StepStatus.processing 0).2
      (mkItem "https://a.example/" ProcessType.full) (by decide)).2
      { step := "get-web-content", status := StepStatus.pending } (by decide)).1
  simpa using h

/-- C3: while the global lock is held, both `startURLWorkflow` and
`startYAMLWorkflow` return `false` immediately and leave the whole global
state (lock owner and cancellation flags), the queue with all its step
statuses, and the created-notes list exactly as they were, so a second run
never takes over the lock. -/
theorem c3_lock_blocks_second_run (g : GlobalState) (inst : String)
    (q : List WaitlistItem) (created : List String) (envs : Nat → ItemEnv)
    (yenv : YamlEnv) (h : g.isWorkflowRunning = true) :
    startURLWorkflow g inst q created envs =
      { returnValue := false, finalState := g, finalQueue := q,
        createdNotes := created } ∧
    startYAMLWorkflow g inst q created yenv =
      { returnValue := false, finalState := g, finalQueue := q,
        createdNotes := created } := by
  constructor
  · unfold startURLWorkflow
    rw [if_pos h]
  · unfold startYAMLWorkflow
    rw [if_pos h]

/-- Witness for C3: a concrete busy state blocks a second URL run. -/
theorem c3_witness :
    busyState.isWorkflowRunning = true ∧
    startURLWorkflow busyState "intruder" demoQueue [] demoEnvs =
      { returnValue := false, finalState := busyState,
        finalQueue := demoQueue, createdNotes := [] } ∧
    startYAMLWorkflow busyState "intruder" demoQueue [] yamlEnvOk =
      { returnValue := false, finalState := busyState,
        finalQueue := demoQueue, createdNotes := [] } := by
  have h := c3_lock_blocks_second_run busyState "intruder" demoQueue []
    demoEnvs yamlEnvOk rfl
  exact ⟨rfl, h.1, h.2⟩

/-- C5: whenever a run actually starts (the lock was free), both entry points
finish with the lock released (`isWorkflowRunning = false`,
`runningInstanceId = null`) and the cancellation flags reset
(`isCancellationRequested = false`, `cancellingInstanceId = null`),
whatever the outcome of the run. -/
theorem startURLWorkflow_finalState (g : GlobalState) (inst : String)
    (q : List WaitlistItem) (created : List String) (envs : Nat → ItemEnv)
    (hne : ¬ g.isWorkflowRunning = true) :
    (startURLWorkflow g inst q created envs).finalState =
      releaseLock (acquireLock g inst) := by
  rcases hres : processLoop (acquireLock g inst) inst envs q created 0 false
    with ⟨r, q2, c2⟩
  unfold startURLWorkflow
  rw [if_neg hne]
  simp only [hres]
  cases r <;> rfl

theorem startYAMLWorkflow_finalState (g : GlobalState) (inst : String)
    (q : List WaitlistItem) (created : List String) (yenv : YamlEnv)
    (hne : ¬ g.isWorkflowRunning = true) :
    (startYAMLWorkflow g inst q created yenv).finalState =
      releaseLock (acquireLock g inst) := by
  unfold startYAMLWorkflow
  rw [if_neg hne]

theorem c5_lock_released (g : GlobalState) (inst : String)
    (q : List WaitlistItem) (created : List String) (envs : Nat → ItemEnv)
    (yenv : YamlEnv) (h : g.isWorkflowRunning = false) :
    ((startURLWorkflow g inst q created envs).finalState.isWorkflowRunning = false ∧
     (startURLWorkflow g inst q created envs).finalState.runningInstanceId = none ∧
     (startURLWorkflow g inst q created envs).finalState.isCancellationRequested = false ∧
     (startURLWorkflow g inst q created envs).finalState.cancellingInstanceId = none) ∧
    ((startYAMLWorkflow g inst q created yenv).finalState.isWorkflowRunning = false ∧
     (startYAMLWorkflow g inst q created yenv).finalState.runningInstanceId = none ∧
     (startYAMLWorkflow g inst q created yenv).finalState.isCancellationRequested = false ∧
     (startYAMLWorkflow g inst q created yenv).finalState.cancellingInstanceId = none) := by
  have hne : ¬ g.isWorkflowRunning = true := by
    rw [h]
    exact Bool.false_ne_true
  rw [startURLWorkflow_finalState g inst q created envs hne,
    startYAMLWorkflow_finalState g inst q created yenv hne]
  exact ⟨⟨rfl, rfl, rfl, rfl⟩, rfl, rfl, rfl, rfl⟩

/-- Witness for C5 at the idle state and the concrete two-item batch. -/
theorem c5_witness :
    idleState.isWorkflowRunning = false ∧
    (startURLWorkflow idleState "run1" demoQueue [] demoEnvs).finalState.isWorkflowRunning
      = false ∧
    (startURLWorkflow idleState "run1" demoQueue [] demoEnvs).finalState.runningInstanceId
      = none ∧
    (startYAMLWorkflow idleState "run1" [] [] yamlEnvOk).finalState.isCancellationRequested
      = false ∧
    (startYAMLWorkflow idleState "run1" [] [] yamlEnvOk).finalState.cancellingInstanceId
      = none := by
  have h := c5_lock_released idleState "run1" demoQueue [] demoEnvs yamlEnvOk rfl
  have h2 := c5_lock_released idleState "run1" [] [] demoEnvs yamlEnvOk rfl
  exact ⟨rfl, h.1.1, h.1.2.1, h2.2.2.2.1, h2.2.2.2.2⟩

/-- C4: `executeStep` first checks for a pending matching cancellation and in
that case throws the cancellation error leaving the queue (hence every step
status) untouched; otherwise it returns exactly the action outcome
(the result on success, the rethrown error on failure) and, when the head
item and the step key exist, the observable status of that step ends at
`completed` on success and at `failed` on a thrown error (after having been
set to `processing` first). -/
theorem c4_executeStep_contract {α : Type} (g : GlobalState) (inst : String)
    (q : List WaitlistItem) (stepId : String) (action : JsResult α) :
    (shouldCancel g inst = true →
      executeStep g inst q stepId action =
        (JsResult.thrown JsError.cancellation, q)) ∧
    (shouldCancel g inst = false →
      (executeStep g inst q stepId action).1 = action ∧
      (∀ item rec, q[0]? = some item →
        item.status.lookup stepId = some rec →
        stepStatusAt (executeStep g inst q stepId action).2 0 stepId =
          some (match action with
                | JsResult.ok _ => StepStatus.completed
                | JsResult.thrown _ => StepStatus.failed))) := by
  constructor
  · intro hc
    unfold executeStep
    rw [if_pos hc]
  · intro hc
    have hcne : ¬ shouldCancel g inst = true := by
      rw [hc]
      exact Bool.false_ne_true
    constructor
    · unfold executeStep
      rw [if_neg hcne]
      cases action <;> rfl
    · intro item rec hitem hrec
      have h1 := wlUpdate_hit q stepId StepStatus.processing 0 item rec hitem hrec
      have hrec1 : ({ item with
          status := recSet item.status stepId StepStatus.processing} :
            WaitlistItem).status.lookup stepId =
          some { rec with status := StepStatus.processing } :=
        recSet_lookup_self item.status stepId StepStatus.processing rec hrec
      unfold executeStep
      rw [if_neg hcne]
      cases action with
      | ok r =>
        exact (wlUpdate_hit (wlUpdate q stepId StepStatus.processing 0).1 stepId
          StepStatus.completed 0 _ _ h1.1 hrec1).2
      | thrown e =>
        exact (wlUpdate_hit (wlUpdate q stepId StepStatus.processing 0).1 stepId
          StepStatus.failed 0 _ _ h1.1 hrec1).2

/-- Witness for C4: both branches at concrete inputs — a pending matching
cancellation leaves the queue untouched, and without cancellation a throwing
action ends the step at `failed`. -/
theorem c4_witness :
    (shouldCancel cancellingState "run1" = true ∧
      executeStep cancellingState "run1" demoQueue "get-web-content"
          (JsResult.ok "content") =
        (JsResult.thrown JsError.cancellation, demoQueue)) ∧
    (shouldCancel idleState "run1" = false ∧
      stepStatusAt (executeStep idleState "run1" demoQueue "get-web-content"
        (JsResult.thrown (JsError.error "boom") : JsResult String)).2
          0 "get-web-content" = some StepStatus.failed) := by
  constructor
  · exact ⟨rfl, (c4_executeStep_contract cancellingState "run1" demoQueue
      "get-web-content" (JsResult.ok "content")).1 rfl⟩
  · refine ⟨rfl, ?_⟩
    have h := ((c4_executeStep_contract idleState "run1" demoQueue
      "get-web-content" (JsResult.thrown (JsError.error "boom") :
        JsResult String)).2 rfl).2
      (mkItem "https://a.example/" ProcessType.full)
      { step := "get-web-content", status := StepStatus.pending }
      (by decide) (by decide)
    simpa using h

set_option maxHeartbeats 1000000 in
/-- C1 (documents the code bug): on the concrete batch of two URLs in which
item 0's content-extraction step throws and item 1 succeeds, the run does
continue to item 1 (its note is created) and the queue is cleared — but the
batch returns `true` even though one item failed.  `URLWorkflow` swallows
every error inside its own `try` / `catch` and returns `false`, and
`startURLWorkflow` discards that return value, so its `hasError` flag (and
the partial-failure notice that depends on it) can never be reached. -/
theorem c1_batch_result_bug :
    (startURLWorkflow idleState "run1" demoQueue [] demoEnvs).returnValue = true ∧
    (startURLWorkflow idleState "run1" demoQueue [] demoEnvs).createdNotes =
      ["Bookmarks/B site.md"] ∧
    (startURLWorkflow idleState "run1" demoQueue [] demoEnvs).finalQueue = [] := by
  simp [startURLWorkflow, processLoop, URLWorkflow, URLWorkflowBody, executeStep,
    wlUpdate, wlRead, wlClear, shouldCancel, acquireLock, releaseLock,
    resetCancellationState, demoQueue, demoEnvs, envContentFails, envAllOk,
    idleState, addAll, wlAdd, mkItem, initStatus, stepsFor, stepsFull, allSteps,
    recSet, parseGeneratedYaml, parseGeneratedYamlCore, jsTruthy, List.lookup]

/-- With a configured key and a valid URL, `searchWebInfo` turns every
failure outcome into the empty string. -/
theorem searchWebInfo_empty_of_failure (key : String) (outcome : FetchOutcome)
    (hk : (key == "") = false) (hf : isFailureOutcome outcome = true) :
    searchWebInfo key true outcome = JsResult.ok "" := by
  cases outcome with
  | netThrow m => simp [searchWebInfo, hk]
  | resp status parsedContent =>
    by_cases h200 : status = 200
    · subst h200
      cases parsedContent with
      | thrown e => simp [searchWebInfo, hk]
      | ok c => simp [isFailureOutcome] at hf
    · by_cases h401 : status = 401
      · subst h401
        simp [searchWebInfo, hk]
      · by_cases h429 : status = 429
        · subst h429
          simp [searchWebInfo, hk]
        · simp [searchWebInfo, hk, h200, h401, h429]

/-- With a configured key and a valid URL, `callApi` (`jinaSearch`) turns
every failure outcome into a thrown wrapped error. -/
theorem callApi_thrown_of_failure (key : String) (outcome : FetchOutcome)
    (hk : (key == "") = false) (hf : isFailureOutcome outcome = true) :
    ∃ msg, callApiJinaSearch key true outcome =
      JsResult.thrown (JsError.error msg) := by
  cases outcome with
  | netThrow m =>
    exact ⟨"AI书签生成失败: " ++ m, by simp [callApiJinaSearch, hk]⟩
  | resp status parsedContent =>
    by_cases h200 : status = 200
    · subst h200
      cases parsedContent with
      | thrown e =>
        cases e with
        | error m =>
          exact ⟨"AI书签生成失败: " ++ m, by simp [callApiJinaSearch, hk]⟩
        | cancellation =>
          exact ⟨"AI书签生成失败: 未知错误", by simp [callApiJinaSearch, hk]⟩
      | ok c => simp [isFailureOutcome] at hf
    · by_cases h401 : status = 401
      · subst h401
        exact ⟨"AI书签生成失败: Jina AI 搜索器: API密钥无效或已过期",
          by simp [callApiJinaSearch, hk]⟩
      · by_cases h429 : status = 429
        · subst h429
          exact ⟨"AI书签生成失败: Jina AI 搜索器: API请求过于频繁，请稍后再试",
            by simp [callApiJinaSearch, hk]⟩
        · by_cases h500 : 500 ≤ status
          · exact ⟨"AI书签生成失败: Jina AI 搜索器: 服务暂时不可用，请稍后再试",
              by simp [callApiJinaSearch, hk, h200, h401, h429, h500]⟩
          · exact ⟨"AI书签生成失败: " ++
                ("Jina AI 搜索器: API返回错误，状态码: " ++ toString status),
              by simp [callApiJinaSearch, hk, h200, h401, h429, h500]⟩

/-- C2 counterexample: with a configured key and a valid URL, an HTTP 401 on
the search request makes `callApi` with type `jinaSearch` — the call the
workflow uses for its search step — throw a wrapped error instead of
returning the empty string. -/
theorem c2_counterexample :
    callApiJinaSearch "key" true (FetchOutcome.resp 401 (JsResult.ok "")) =
      JsResult.thrown
        (JsError.error "AI书签生成失败: Jina AI 搜索器: API密钥无效或已过期") := by
  rfl

/-- C2 (amended): with a configured key and a valid URL, `searchWebInfo`
degrades every failure mode — HTTP 401, 429, any other unexpected status, a
parse error on a 200 response, or a thrown exception — to returning the
empty string; but `callApi` with type `jinaSearch` (the search entry point
the workflow actually calls) propagates every one of them as a thrown
error. -/
theorem c2_search_degrades (key : String) (urlValid : Bool)
    (outcome : FetchOutcome) (hk : (key == "") = false) (hv : urlValid = true)
    (hf : isFailureOutcome outcome = true) :
    searchWebInfo key urlValid outcome = JsResult.ok "" ∧
    ∃ msg, callApiJinaSearch key urlValid outcome =
      JsResult.thrown (JsError.error msg) := by
  subst hv
  exact ⟨searchWebInfo_empty_of_failure key outcome hk hf,
    callApi_thrown_of_failure key outcome hk hf⟩

/-- Witness for C2 at a concrete 429 rate-limit response. -/
theorem c2_witness :
    ("key" == "") = false ∧
    isFailureOutcome (FetchOutcome.resp 429 (JsResult.ok "x")) = true ∧
    searchWebInfo "key" true (FetchOutcome.resp 429 (JsResult.ok "x")) =
      JsResult.ok "" := by
  refine ⟨by decide, by decide, ?_⟩
  exact (c2_search_degrades "key" true (FetchOutcome.resp 429 (JsResult.ok "x"))
    (by decide) rfl (by decide)).1

/-- C8: at each call site the content is embedded into the prompt unchanged
when its length is at most the hard-coded maximum (2000 for the web content
and 8000 for the search text in `src/ApiCaller.ts`; 8000 and 2000
respectively in `src/aiService.ts`) and as exactly the first maximum-length
characters followed by the literal marker `...` otherwise. -/
theorem c8_truncation (tmpl url c s : List Char) :
    (c.length ≤ 2000 → apiTruncWebContent c = c) ∧
    (2000 < c.length → apiTruncWebContent c = c.take 2000 ++ jsDots) ∧
    (s.length ≤ 8000 → apiTruncSearchInfo s = s) ∧
    (8000 < s.length → apiTruncSearchInfo s = s.take 8000 ++ jsDots) ∧
    (∃ pre mid suf, apiPrompt tmpl url c s =
      pre ++ apiTruncWebContent c ++ (mid ++ apiTruncSearchInfo s ++ suf)) ∧
    (c.length ≤ 8000 → aiTruncWebContent c = c) ∧
    (8000 < c.length → aiTruncWebContent c = c.take 8000 ++ jsDots) ∧
    (s.length ≤ 2000 → aiTruncSearchInfo s = s) ∧
    (2000 < s.length → aiTruncSearchInfo s = s.take 2000 ++ jsDots) ∧
    (∃ pre mid suf, aiPrompt tmpl url c s =
      pre ++ aiTruncWebContent c ++ (mid ++ aiTruncSearchInfo s ++ suf)) := by
  refine ⟨?_, ?_, ?_, ?_, ?_, ?_, ?_, ?_, ?_, ?_⟩
  · intro h
    simp [apiTruncWebContent, truncateAt, Nat.not_lt.mpr h]
  · intro h
    simp [apiTruncWebContent, truncateAt, h]
  · intro h
    simp [apiTruncSearchInfo, truncateAt, Nat.not_lt.mpr h]
  · intro h
    simp [apiTruncSearchInfo, truncateAt, h]
  · exact ⟨tmpl ++ promptHeaderContent, promptHeaderSearch,
      promptHeaderUrl ++ url ++ ['\n'], by simp [apiPrompt]⟩
  · intro h
    simp [aiTruncWebContent, truncateAt, Nat.not_lt.mpr h]
  · intro h
    simp [aiTruncWebContent, truncateAt, h]
  · intro h
    simp [aiTruncSearchInfo, truncateAt, Nat.not_lt.mpr h]
  · intro h
    simp [aiTruncSearchInfo, truncateAt, h]
  · exact ⟨tmpl ++ promptHeaderContent, promptHeaderSearch,
      promptHeaderUrl ++ url ++ "\n\n请根据以上信息生成完整的书签YAML信息。".toList,
      by simp [aiPrompt]⟩

/-- Witness for C8 on a short content string. -/
theorem c8_witness :
    ((['a', 'b'] : List Char).length ≤ 2000) ∧
    apiTruncWebContent ['a', 'b'] = ['a', 'b'] := by
  exact ⟨by decide, (c8_truncation [] [] ['a', 'b'] []).1 (by decide)⟩

/-- C10: the record built by `parseGeneratedYaml` takes its `created` field
from the current clock reading (`new Date().toISOString()`), ignoring any
`created` value present in the parsed input; its `screenshotFileName` is the
parsed title with `.png` appended; and the call throws when the parsed
`title` or `url` field is missing or empty. -/
theorem c10_parse_contract (p : ParsedYaml) (now : String) (c2 : Option String) :
    (parseGeneratedYaml (JsResult.ok { p with created := c2 }) now =
      parseGeneratedYaml (JsResult.ok p) now) ∧
    (∀ d, parseGeneratedYaml (JsResult.ok p) now = JsResult.ok d →
      d.created = now ∧ d.screenshotFileName = d.title ++ ".png") ∧
    ((jsTruthy p.title = false ∨ jsTruthy p.url = false) →
      parseGeneratedYaml (JsResult.ok p) now =
        JsResult.thrown (JsError.error "解析生成的书签信息失败")) := by
  refine ⟨rfl, ?_, ?_⟩
  · intro d h
    by_cases ht : jsTruthy p.title = true
    · by_cases hu : jsTruthy p.url = true
      · have he : parseGeneratedYaml (JsResult.ok p) now = JsResult.ok
            { created := now, title := p.title.getD "", url := p.url.getD "",
              description := p.description.getD "", tags := p.tags.getD [],
              screenshotFileName := p.title.getD "" ++ ".png",
              bookmarkNote := p.bookmarkNote.getD "" } := by
          simp [parseGeneratedYaml, parseGeneratedYamlCore, ht, hu]
        rw [he] at h
        injection h with hd
        rw [← hd]
        exact ⟨rfl, rfl⟩
      · simp [parseGeneratedYaml, parseGeneratedYamlCore, ht, hu] at h
    · simp [parseGeneratedYaml, parseGeneratedYamlCore, ht] at h
  · intro h
    have hand : (jsTruthy p.title && jsTruthy p.url) = false := by
      cases h with
      | inl h1 => simp [h1]
      | inr h2 => simp [h2]
    simp [parseGeneratedYaml, parseGeneratedYamlCore, hand]

/-- Witness for C10: ignoring a supplied `created` value, and rejecting a
missing title. -/
theorem c10_witness :
    (parseGeneratedYaml (JsResult.ok
        { title := some "T", url := some "https://t.example/",
          description := none, tags := none, bookmarkNote := none,
          created := some "1999-01-01" }) "2026-10-11" =
      parseGeneratedYaml (JsResult.ok
        { title := some "T", url := some "https://t.example/",
          description := none, tags := none, bookmarkNote := none,
          created := none }) "2026-10-11") ∧
    (jsTruthy (none : Option String) = false ∨
      jsTruthy (some "https://t.example/") = false) ∧
    parseGeneratedYaml (JsResult.ok
        { title := none, url := some "https://t.example/",
          description := none, tags := none, bookmarkNote := none,
          created := none }) "2026-10-11" =
      JsResult.thrown (JsError.error "解析生成的书签信息失败") := by
  refine ⟨?_, Or.inl rfl, ?_⟩
  · exact (c10_parse_contract
      { title := some "T", url := some "https://t.example/",
        description := none, tags := none, bookmarkNote := none,
        created := none } "2026-10-11" (some "1999-01-01")).1
  · exact (c10_parse_contract
      { title := none, url := some "https://t.example/",
        description := none, tags := none, bookmarkNote := none,
        created := none } "2026-10-11" none).2.2 (Or.inl rfl)

/-- Every character surviving the illegal-class replacement is legal. -/
theorem mem_replaceIllegal (s : List Char) (c : Char)
    (hc : c ∈ replaceIllegal s) : isIllegal c = false := by
  rw [replaceIllegal, List.mem_map] at hc
  obtain ⟨x, _, hx⟩ := hc
  by_cases hix : isIllegal x = true
  · rw [if_pos hix] at hx
    rw [← hx]
    decide
  · rw [if_neg hix] at hx
    rw [← hx]
    exact Bool.eq_false_iff.mpr hix

/-- The replacement is the identity on texts without illegal characters. -/
theorem replaceIllegal_eq_self (l : List Char)
    (h : ∀ c ∈ l, isIllegal c = false) : replaceIllegal l = l := by
  rw [replaceIllegal]
  conv_rhs => rw [← List.map_id l]
  apply List.map_congr_left
  intro a ha
  rw [if_neg (by simp [h a ha])]
  rfl

/-- Whitespace collapsing only emits the space character or input characters. -/
theorem mem_collapseWs : ∀ (l : List Char) (c : Char),
    c ∈ collapseWs l → c = ' ' ∨ c ∈ l := by
  intro l
  induction l with
  | nil =>
    intro c hc
    simp [collapseWs] at hc
  | cons a t ih =>
    intro c hc
    cases t with
    | nil =>
      by_cases ha : isJsWs a = true
      · simp [collapseWs, ha] at hc
        exact Or.inl hc
      · simp [collapseWs, ha] at hc
        exact Or.inr (by simp [hc])
    | cons d rest =>
      by_cases h1 : isJsWs a = true
      · by_cases h2 : isJsWs d = true
        · simp only [collapseWs, h1, h2, Bool.and_self, if_true, if_pos] at hc
          rcases ih c hc with h | h
          · exact Or.inl h
          · exact Or.inr (List.mem_cons_of_mem a h)
        · simp [collapseWs, h1, h2] at hc
          rcases hc with h | h
          · exact Or.inl h
          · rcases ih c h with h3 | h3
            · exact Or.inl h3
            · exact Or.inr (List.mem_cons_of_mem a h3)
      · simp [collapseWs, h1] at hc
        rcases hc with h | h
        · exact Or.inr (by simp [h])
        · rcases ih c h with h3 | h3
          · exact Or.inl h3
          · exact Or.inr (List.mem_cons_of_mem a h3)

/-- Every whitespace character in a collapsed text is the plain space. -/
theorem wsMem_collapseWs : ∀ (l : List Char) (c : Char),
    c ∈ collapseWs l → isJsWs c = true → c = ' ' := by
  intro l
  induction l with
  | nil =>
    intro c hc
    simp [collapseWs] at hc
  | cons a t ih =>
    intro c hc hws
    cases t with
    | nil =>
      by_cases ha : isJsWs a = true
      · simp [collapseWs, ha] at hc
        exact hc
      · simp [collapseWs, ha] at hc
        rw [hc] at hws
        exact absurd hws ha
    | cons d rest =>
      by_cases h1 : isJsWs a = true
      · by_cases h2 : isJsWs d = true
        · simp only [collapseWs, h1, h2, Bool.and_self, if_true, if_pos] at hc
          exact ih c hc hws
        · simp [collapseWs, h1, h2] at hc
          rcases hc with h | h
          · exact h
          · exact ih c h hws
      · simp [collapseWs, h1] at hc
        rcases hc with h | h
        · rw [h] at hws
          exact absurd hws h1
        · exact ih c h hws

/-- Collapsing keeps a non-whitespace head in place. -/
theorem head?_collapseWs_not (d : Char) (rest : List Char)
    (h : isJsWs d = false) : (collapseWs (d :: rest)).head? = some d := by
  cases rest with
  | nil => simp [collapseWs, h]
  | cons e rest => simp [collapseWs, h]

/-- A collapsed text has no two adjacent whitespace characters. -/
theorem chain'_collapseWs : ∀ (l : List Char),
    List.Chain' noWsPair (collapseWs l) := by
  intro l
  induction l with
  | nil => simp [collapseWs]
  | cons a t ih =>
    cases t with
    | nil =>
      by_cases ha : isJsWs a = true <;> simp [collapseWs, ha]
    | cons d rest =>
      by_cases h1 : isJsWs a = true
      · by_cases h2 : isJsWs d = true
        · simpa only [collapseWs, h1, h2, Bool.and_self, if_true, if_pos] using ih
        · rw [show collapseWs (a :: d :: rest) = ' ' :: collapseWs (d :: rest) by
            simp [collapseWs, h1, h2]]
          refine List.chain'_cons'.mpr ⟨?_, ih⟩
          intro y hy
          rw [head?_collapseWs_not d rest (Bool.eq_false_iff.mpr h2)] at hy
          have hyd : y = d := by
            simpa using hy.symm
          rw [hyd]
          exact Or.inr (Bool.eq_false_iff.mpr h2)
      · rw [show collapseWs (a :: d :: rest) = a :: collapseWs (d :: rest) by
          simp [collapseWs, h1]]
        refine List.chain'_cons'.mpr ⟨?_, ih⟩
        intro y _
        exact Or.inl (Bool.eq_false_iff.mpr h1)

/-- Collapsing is the identity on texts whose whitespace is already single
plain spaces. -/
theorem collapseWs_eq_self : ∀ (l : List Char),
    List.Chain' noWsPair l → (∀ c ∈ l, isJsWs c = true → c = ' ') →
    collapseWs l = l := by
  intro l
  induction l with
  | nil =>
    intro _ _
    rfl
  | cons a t ih =>
    intro hch hsp
    cases t with
    | nil =>
      by_cases ha : isJsWs a = true
      · have ha2 : a = ' ' := hsp a (by simp) ha
        simp [collapseWs, ha, ha2]
      · simp [collapseWs, ha]
    | cons d rest =>
      have hR : noWsPair a d := (List.chain'_cons.mp hch).1
      have hih := ih (List.chain'_cons.mp hch).2
        (fun c hcm hw => hsp c (List.mem_cons_of_mem a hcm) hw)
      by_cases ha : isJsWs a = true
      · have hd : isJsWs d = false := by
          rcases hR with h | h
          · rw [ha] at h
            cases h
          · exact h
        have ha2 : a = ' ' := hsp a (by simp) ha
        rw [show collapseWs (a :: d :: rest) = ' ' :: collapseWs (d :: rest) by
          simp [collapseWs, ha, hd]]
        rw [hih, ha2]
      · rw [show collapseWs (a :: d :: rest) = a :: collapseWs (d :: rest) by
          simp [collapseWs, ha]]
        rw [hih]

/-- The head surviving a `dropWhile` fails the predicate. -/
theorem dropWhile_head_not (p : Char → Bool) : ∀ (l : List Char) (c : Char),
    (l.dropWhile p).head? = some c → p c = false := by
  intro l
  induction l with
  | nil =>
    intro c h
    simp at h
  | cons a t ih =>
    intro c h
    by_cases ha : p a = true
    · rw [List.dropWhile_cons_of_pos ha] at h
      exact ih c h
    · rw [List.dropWhile_cons_of_neg ha] at h
      have hac : a = c := by simpa using h
      rw [← hac]
      exact Bool.eq_false_iff.mpr ha

/-- A text splits into dropped prefix, its trim and dropped suffix. -/
theorem trimWs_decomp (l : List Char) :
    ∃ pre suf, l = pre ++ (trimWs l ++ suf) := by
  have h1 : l.takeWhile isJsWs ++ l.dropWhile isJsWs = l :=
    List.takeWhile_append_dropWhile isJsWs l
  have h2 : (l.dropWhile isJsWs).reverse.takeWhile isJsWs ++
      (l.dropWhile isJsWs).reverse.dropWhile isJsWs =
      (l.dropWhile isJsWs).reverse :=
    List.takeWhile_append_dropWhile isJsWs ((l.dropWhile isJsWs).reverse)
  have h3 : l.dropWhile isJsWs =
      trimWs l ++ ((l.dropWhile isJsWs).reverse.takeWhile isJsWs).reverse := by
    have hh := congrArg List.reverse h2
    rw [List.reverse_append, List.reverse_reverse] at hh
    exact hh.symm
  exact ⟨l.takeWhile isJsWs,
    ((l.dropWhile isJsWs).reverse.takeWhile isJsWs).reverse,
    by rw [← h3, h1]⟩

/-- Trimming only removes characters. -/
theorem mem_trimWs (l : List Char) (c : Char) (hc : c ∈ trimWs l) : c ∈ l := by
  obtain ⟨pre, suf, hd⟩ := trimWs_decomp l
  rw [hd]
  simp [hc]

/-- Trimming preserves the no-adjacent-whitespace property. -/
theorem chain'_trimWs (l : List Char) (h : List.Chain' noWsPair l) :
    List.Chain' noWsPair (trimWs l) := by
  obtain ⟨pre, suf, hd⟩ := trimWs_decomp l
  rw [hd] at h
  exact (List.chain'_append.mp (List.chain'_append.mp h).2.1).1

/-- A trimmed text does not start with whitespace. -/
theorem head?_trimWs_not (l : List Char) (c : Char)
    (h : (trimWs l).head? = some c) : isJsWs c = false := by
  rw [show trimWs l =
    ((l.dropWhile isJsWs).reverse.dropWhile isJsWs).reverse from rfl,
    List.head?_reverse] at h
  have h2 : ((l.dropWhile isJsWs).reverse.takeWhile isJsWs ++
      (l.dropWhile isJsWs).reverse.dropWhile isJsWs).getLast? = some c := by
    rw [List.getLast?_append, h]
    rfl
  rw [List.takeWhile_append_dropWhile, List.getLast?_reverse] at h2
  exact dropWhile_head_not isJsWs l c h2

/-- A trimmed text does not end with whitespace. -/
theorem getLast?_trimWs_not (l : List Char) (c : Char)
    (h : (trimWs l).getLast? = some c) : isJsWs c = false := by
  rw [show trimWs l =
    ((l.dropWhile isJsWs).reverse.dropWhile isJsWs).reverse from rfl,
    List.getLast?_reverse] at h
  exact dropWhile_head_not isJsWs _ c h

/-- Trimming is the identity on texts without leading or trailing
whitespace. -/
theorem trimWs_eq_self (l : List Char)
    (h1 : ∀ c, l.head? = some c → isJsWs c = false)
    (h2 : ∀ c, l.getLast? = some c → isJsWs c = false) :
    trimWs l = l := by
  have hd : l.dropWhile isJsWs = l := by
    cases l with
    | nil => rfl
    | cons a t =>
      have ha := h1 a rfl
      rw [List.dropWhile_cons_of_neg (by simp [ha])]
  have hrev : l.reverse.dropWhile isJsWs = l.reverse := by
    cases hr : l.reverse with
    | nil => rfl
    | cons a t =>
      have ha : l.getLast? = some a := by
        rw [← List.head?_reverse, hr]
        rfl
      have hws := h2 a ha
      rw [List.dropWhile_cons_of_neg (by simp [hws])]
  rw [show trimWs l =
    ((l.dropWhile isJsWs).reverse.dropWhile isJsWs).reverse from rfl,
    hd, hrev, List.reverse_reverse]

/-- C9: `sanitizeFileName` is idempotent, and its output contains none of
the characters of the class `[<>:"/\\|?*]`, no two consecutive whitespace
characters, and no leading or trailing whitespace. -/
theorem c9_sanitize_contract (s : List Char) :
    sanitizeFileName (sanitizeFileName s) = sanitizeFileName s ∧
    (∀ c ∈ sanitizeFileName s, isIllegal c = false) ∧
    List.Chain' noWsPair (sanitizeFileName s) ∧
    (∀ c, (sanitizeFileName s).head? = some c → isJsWs c = false) ∧
    (∀ c, (sanitizeFileName s).getLast? = some c → isJsWs c = false) := by
  have hillegal : ∀ c ∈ sanitizeFileName s, isIllegal c = false := by
    intro c hc
    have hc2 := mem_trimWs _ c hc
    rcases mem_collapseWs _ c hc2 with h | h
    · rw [h]
      decide
    · exact mem_replaceIllegal _ c h
  have hchain : List.Chain' noWsPair (sanitizeFileName s) :=
    chain'_trimWs _ (chain'_collapseWs _)
  have hsp : ∀ c ∈ sanitizeFileName s, isJsWs c = true → c = ' ' :=
    fun c hc hws => wsMem_collapseWs _ c (mem_trimWs _ c hc) hws
  have hhead : ∀ c, (sanitizeFileName s).head? = some c → isJsWs c = false :=
    fun c h => head?_trimWs_not _ c h
  have hlast : ∀ c, (sanitizeFileName s).getLast? = some c → isJsWs c = false :=
    fun c h => getLast?_trimWs_not _ c h
  refine ⟨?_, hillegal, hchain, hhead, hlast⟩
  show trimWs (collapseWs (replaceIllegal (sanitizeFileName s))) =
    sanitizeFileName s
  rw [replaceIllegal_eq_self _ hillegal, collapseWs_eq_self _ hchain hsp,
    trimWs_eq_self _ hhead hlast]

/-- Witness for C9 on a concrete name with an illegal character, doubled
spaces and trailing space. -/
theorem c9_witness :
    ('a' ∈ sanitizeFileName ['a', '<', ' ', ' ', 'b', ' ']) ∧
    isIllegal 'a' = false ∧
    sanitizeFileName (sanitizeFileName ['a', '<', ' ', ' ', 'b', ' ']) =
      sanitizeFileName ['a', '<', ' ', ' ', 'b', ' '] := by
  refine ⟨by decide, ?_, (c9_sanitize_contract ['a', '<', ' ', ' ', 'b', ' ']).1⟩
  exact (c9_sanitize_contract ['a', '<', ' ', ' ', 'b', ' ']).2.1 'a' (by decide)

end ObsidianBookmarks
